import Mathlib

/-!
# Verification of the auction program's `place_bid` processor

Shallow embedding of `src/auction/program/src/processor/place_bid.rs`
(an on-ledger English-auction engine).  Pubkeys are modelled as `Nat`,
`u64` amounts as `Nat` (the only arithmetic the processor performs on
them is comparison and `saturating_sub`, which coincides with `Nat`
truncated subtraction), and the persisted accounts touched by the
instruction as an explicit state record threaded through the function.
The state returned together with an error reflects exactly the writes
the instruction body itself performed before erroring.

Types declared outside `src/` (`AuctionData`, `AuctionState`, `Bid`,
`BidState`, `BidderMetadata`, `BidderPot`, `PriceFloor`) are modelled
from their uses in `place_bid.rs` and, where those uses do not pin them
down, from the specification; such definitions carry a
`Modelled from the spec:` doc comment.
-/

namespace Auction

/-- Error kinds surfaced by `place_bid` (from `errors::AuctionError`
plus the generic `ProgramError` failures of the helper asserts). -/
inductive AuctionError where
  | InvalidState
  | BidTooSmall
  | BidAlreadyActive
  | BidderPotTokenAccountOwnerMismatch
  | BalanceTooLow
  /-- Modelled from the spec: the Bid Ledger's "bid too low to displace"
  rejection (§7 LedgerFull/BidRejected); `BidState::place_bid` is not in
  `src/`. -/
  | BidTooLow
  deriving DecidableEq, Repr

/-- Non-auction-specific failures of the processor: `parse_accounts`
asserts, `assert_derivation`, `assert_initialized`,
`Account::unpack_from_slice` and the SPL transfer CPI, whose bodies live
in `utils` and external crates outside `src/`. -/
inductive ProgErr where
  | Auction (e : AuctionError)
  | ParseError
  | Derivation
  | Uninitialized
  | UnpackFailed
  | TransferFailed
  deriving DecidableEq, Repr

/-- Modelled from the spec: auction lifecycle states
`Created → Started → Ended` (§4.1); the enum itself is declared in the
processor module, outside `src/`. -/
inductive AuctionState where
  | Created
  | Started
  | Ended
  deriving DecidableEq, Repr

/-- Modelled from the spec: `Started → Ended` is the only transition the
end step performs; `Ended` is terminal (§4.1).  Corresponds to
`AuctionState::end` called at line 202 of `place_bid.rs`. -/
def AuctionState.endTransition : AuctionState → Except AuctionError AuctionState
  | AuctionState.Started => Except.ok AuctionState.Ended
  | _ => Except.error AuctionError.InvalidState

/-- Modelled from the spec: price floor policy `None | MinimumPrice(amount)`
(§3); matched at line 191 of `place_bid.rs`. -/
inductive PriceFloor where
  | NoFloor
  | MinimumPrice (amount : Nat)
  deriving DecidableEq, Repr

/-- The check at lines 191-195: a configured minimum price rejects any
`amount ≤ min`. -/
def priceFloorRejects : PriceFloor → Nat → Bool
  | PriceFloor.MinimumPrice m, amt => amt ≤ m
  | PriceFloor.NoFloor, _ => false

/-- A bid, `Bid(Pubkey, u64)`: the bidder-pot reference and the amount
(constructed at line 261 of `place_bid.rs`). -/
structure Bid where
  pot : Nat
  amount : Nat
  deriving DecidableEq, Repr

/-- Modelled from the spec: the Bid Ledger, an ordered (ascending by
amount) sequence of bids with a fixed capacity (§3, §4.2); the
`BidState` type is declared outside `src/`. -/
structure BidState where
  bids : List Bid
  max : Nat
  deriving DecidableEq, Repr

/-- Sorted insertion keeping ascending amount order; a new bid of equal
amount ranks above (after) existing ones, a consistent tie-break as §3
requires. -/
def insertBid (b : Bid) : List Bid → List Bid
  | [] => [b]
  | c :: rest =>
    if b.amount < c.amount then b :: c :: rest else c :: insertBid b rest

/-- Modelled from the spec: Bid Ledger `place_bid(candidate)` (§4.2).
Below capacity the candidate is inserted in order; at capacity the
lowest-ranked bid (the head of the ascending list) is evicted when the
candidate strictly exceeds it, otherwise the call is rejected. -/
def BidState.place_bid (s : BidState) (b : Bid) : Except AuctionError BidState :=
  if s.bids.length < s.max then
    Except.ok ⟨insertBid b s.bids, s.max⟩
  else
    match s.bids with
    | [] => Except.error AuctionError.BidTooLow
    | m :: rest =>
      if m.amount < b.amount then
        Except.ok ⟨insertBid b rest, s.max⟩
      else
        Except.error AuctionError.BidTooLow

/-- The fields of `AuctionData` that `place_bid` reads or writes (the
struct is declared outside `src/`; timing fields follow §4.1: a
last-bid slot plus an optional hard end slot). -/
structure AuctionData where
  token_mint : Nat
  state : AuctionState
  price_floor : PriceFloor
  last_bid : Option Nat
  end_auction_at : Option Nat
  bid_state : BidState
  deriving DecidableEq, Repr

/-- Modelled from the spec: grace period after the last bid, "equivalent
to 10 minutes of chain time" (§4.1), as a slot count. -/
def GRACE_PERIOD : Nat := 600

/-- Modelled from the spec: `AuctionData::ended(now)` (§4.1) — the last
bid is set and `now − last_bid ≥ GRACE_PERIOD`, or a configured hard
end slot has been reached. -/
def AuctionData.ended (a : AuctionData) (now : Nat) : Bool :=
  (match a.last_bid with
   | some t => GRACE_PERIOD ≤ now - t
   | none => false) ||
  (match a.end_auction_at with
   | some t => t ≤ now
   | none => false)

/-- `BidderMetadata` record (fields per lines 265-270 of
`place_bid.rs`). -/
structure BidderMetadata where
  bidder_pubkey : Nat
  auction_pubkey : Nat
  last_bid : Nat
  last_bid_timestamp : Int
  cancelled : Bool
  deriving DecidableEq, Repr

/-- A freshly allocated, zeroed metadata account as borsh-decoded at
line 137: all fields zero, `cancelled = false`. -/
def zeroMeta : BidderMetadata := ⟨0, 0, 0, 0, false⟩

/-- `BidderPot` record (fields per lines 228-231 of `place_bid.rs`). -/
structure BidderPot where
  bidder_pot : Nat
  bidder_act : Nat
  auction_act : Nat
  deriving DecidableEq, Repr

/-- An SPL token account as the processor reads it: its owner field and
its token amount. -/
structure SplAccount where
  owner : Nat
  amount : Nat
  deriving DecidableEq, Repr

/-- The clock sysvar fields read at lines 198, 258, 268-269. -/
structure Clock where
  slot : Nat
  unix_timestamp : Int
  deriving DecidableEq, Repr

/-- Persisted state touched by one `place_bid` instruction: the bidder
metadata account (`meta_exists` = owned by the program, i.e. allocated),
the bidder pot account (`pot_exists` = nonempty data), the pot's SPL
token account, the bidder's SPL source account, and the auction
record. -/
structure PlaceBidState where
  meta_exists : Bool
  meta : BidderMetadata
  pot_exists : Bool
  pot : BidderPot
  pot_token_init : Bool
  pot_token : SplAccount
  bidder_token : SplAccount
  auction : AuctionData
  deriving DecidableEq, Repr

/-- Instruction inputs: `PlaceBidArgs` (amount; the resource only feeds
the auction-address derivation), the relevant account keys, the clock,
and boolean oracles standing for the externally-implemented checks
(`parse_accounts` asserts, the three `assert_derivation` calls, the
source-account unpack, and success of the SPL transfer CPI), whose code
is outside `src/`. -/
structure PlaceBidInput where
  amount : Nat
  auction_key : Nat
  bidder_key : Nat
  mint_key : Nat
  pot_key : Nat
  pot_token_key : Nat
  clock : Clock
  parse_ok : Bool
  meta_derived : Bool
  pot_derived : Bool
  auction_derived : Bool
  bidder_unpack_ok : Bool
  transfer_ok : Bool
  deriving DecidableEq, Repr

/-- Lines 207-273: lazily create the pot binding (attaching the SPL pot
address, bidder and auction keys) or verify the recorded SPL address,
check the source balance (`saturating_sub(amount) <= 0`, i.e. `= 0` on
`Nat`), transfer `amount` into the pot, set the auction's `last_bid`,
run the Bid Ledger insertion, and on its success serialize the auction
and overwrite the metadata record.  A ledger rejection aborts before the
auction/metadata serializations (the in-memory `last_bid` update is
never persisted), but after the transfer. -/
def afterPot (inp : PlaceBidInput) (s : PlaceBidState) : PlaceBidState × Option ProgErr :=
  if inp.bidder_unpack_ok = false then (s, some ProgErr.UnpackFailed)
  else if s.bidder_token.amount - inp.amount = 0 then
    (s, some (ProgErr.Auction AuctionError.BalanceTooLow))
  else if inp.transfer_ok = false then (s, some ProgErr.TransferFailed)
  else
    let s3 : PlaceBidState :=
      { s with
        bidder_token := { s.bidder_token with amount := s.bidder_token.amount - inp.amount }
        pot_token := { s.pot_token with amount := s.pot_token.amount + inp.amount } }
    let a : AuctionData := { s3.auction with last_bid := some inp.clock.slot }
    match a.bid_state.place_bid ⟨inp.pot_key, inp.amount⟩ with
    | Except.error e => (s3, some (ProgErr.Auction e))
    | Except.ok bs =>
      ({ s3 with
         auction := { a with bid_state := bs }
         meta :=
           { bidder_pubkey := inp.bidder_key
             auction_pubkey := inp.auction_key
             last_bid := inp.clock.slot
             last_bid_timestamp := inp.clock.unix_timestamp
             cancelled := false } }, none)

/-- Lines 216-239: if the pot account is empty it is created and its
three fields are written and serialized; otherwise the recorded SPL pot
address must match the supplied one. -/
def potStep (inp : PlaceBidInput) (s : PlaceBidState) : PlaceBidState × Option ProgErr :=
  if s.pot_exists = false then
    afterPot inp
      { s with
        pot_exists := true
        pot :=
          { bidder_pot := inp.pot_token_key
            bidder_act := inp.bidder_key
            auction_act := inp.auction_key } }
  else if s.pot.bidder_pot ≠ inp.pot_token_key then
    (s, some (ProgErr.Auction AuctionError.BidderPotTokenAccountOwnerMismatch))
  else afterPot inp s

/-- Lines 147-273, after the metadata step: pot-address derivation, the
pot's SPL account must be initialized and owned by the auction, auction
derivation and load, the currency-mismatch silent no-op, the
lifecycle-state check, the price floor, and the lazy end-of-auction
transition (which serializes only the updated state and reports
success); otherwise control continues into `potStep`. -/
def afterMeta (inp : PlaceBidInput) (s : PlaceBidState) : PlaceBidState × Option ProgErr :=
  if inp.pot_derived = false then (s, some ProgErr.Derivation)
  else if s.pot_token_init = false then (s, some ProgErr.Uninitialized)
  else if s.pot_token.owner ≠ inp.auction_key then
    (s, some (ProgErr.Auction AuctionError.BidderPotTokenAccountOwnerMismatch))
  else if inp.auction_derived = false then (s, some ProgErr.Derivation)
  else if s.auction.token_mint ≠ inp.mint_key then (s, none)
  else if s.auction.state ≠ AuctionState.Started then
    (s, some (ProgErr.Auction AuctionError.InvalidState))
  else if priceFloorRejects s.auction.price_floor inp.amount then
    (s, some (ProgErr.Auction AuctionError.BidTooSmall))
  else if s.auction.ended inp.clock.slot then
    match s.auction.state.endTransition with
    | Except.error e => (s, some (ProgErr.Auction e))
    | Except.ok st => ({ s with auction := { s.auction with state := st } }, none)
  else potStep inp s

/-- The whole `place_bid` processor (lines 97-274): account parsing and
metadata derivation, then the lazy create-or-validate step for the
bidder metadata record — a fresh account is allocated (zeroed) for a
first-time bidder, while an existing record whose previous bid is not
cancelled aborts with `BidAlreadyActive` — then the rest of the
protocol.  The returned state holds exactly the account writes performed
before returning. -/
def place_bid (inp : PlaceBidInput) (s : PlaceBidState) : PlaceBidState × Option ProgErr :=
  if inp.parse_ok = false then (s, some ProgErr.ParseError)
  else if inp.meta_derived = false then (s, some ProgErr.Derivation)
  else if s.meta_exists = false then
    afterMeta inp { s with meta_exists := true, meta := zeroMeta }
  else if s.meta.cancelled = false then
    (s, some (ProgErr.Auction AuctionError.BidAlreadyActive))
  else afterMeta inp s

/-- The state as it stands after the metadata create-or-validate step
succeeds (either branch of lines 118-145). -/
def metaResolved (s : PlaceBidState) : PlaceBidState :=
  if s.meta_exists then s else { s with meta_exists := true, meta := zeroMeta }

/-- The state as it stands after the pot create-or-verify step succeeds
(either branch of lines 216-239). -/
def potResolved (inp : PlaceBidInput) (s : PlaceBidState) : PlaceBidState :=
  if s.pot_exists then s
  else
    { s with
      pot_exists := true
      pot :=
        { bidder_pot := inp.pot_token_key
          bidder_act := inp.bidder_key
          auction_act := inp.auction_key } }

/-- Ascending amount order, the Bid Ledger's representation invariant
(§3: "the sequence is always sorted by amount"). -/
def sortedBids (l : List Bid) : Prop :=
  l.Pairwise (fun a b => a.amount ≤ b.amount)

instance (l : List Bid) : Decidable (sortedBids l) := by
  unfold sortedBids
  infer_instance

/-- The multiset of amounts carried by a list of bids. -/
def amountsOf (l : List Bid) : Multiset Nat :=
  (l.map Bid.amount : List Nat)

/-- One call of the ledger's `place_bid` as the surrounding sequence
uses it: a rejection leaves the ledger unchanged. -/
def ledgerStep (st : BidState) (b : Bid) : BidState :=
  match st.place_bid b with
  | Except.ok st2 => st2
  | Except.error _ => st

/-- Run a whole sequence of candidate bids against an initially empty
ledger of capacity `c`. -/
def runBids (c : Nat) (l : List Bid) : BidState :=
  l.foldl ledgerStep { bids := [], max := c }

/-- The ledger holds a top-selection of the submitted amounts: the
submitted multiset splits into the retained amounts plus the
evicted/rejected ones, and every amount not retained is ≤ every retained
amount (§4.2's "the top-`capacity` amounts ever submitted and not
evicted"). -/
def IsTopSelection (sub : Multiset Nat) (st : BidState) : Prop :=
  ∃ ev : Multiset Nat,
    amountsOf st.bids + ev = sub ∧
    ∀ x ∈ ev, ∀ b ∈ st.bids, x ≤ b.amount

/-- Invariant carried through a sequence of ledger calls: fixed
capacity, sortedness, size `min (number submitted) capacity`, and the
top-selection property. -/
def LedgerInv (c : Nat) (sub : Multiset Nat) (st : BidState) : Prop :=
  st.max = c ∧ sortedBids st.bids ∧
  st.bids.length = min (Multiset.card sub) c ∧
  IsTopSelection sub st

/-- Baseline concrete state for witnesses: an existing cancelled
metadata record, an existing matching pot binding, the pot's SPL account
owned by the auction key, 1000 tokens of balance, and a `Started`
auction with floor 100, no prior bid and an empty 3-slot ledger. -/
def sBase : PlaceBidState :=
  { meta_exists := true
    meta :=
      { bidder_pubkey := 1, auction_pubkey := 2, last_bid := 0,
        last_bid_timestamp := 0, cancelled := true }
    pot_exists := true
    pot := { bidder_pot := 6, bidder_act := 1, auction_act := 2 }
    pot_token_init := true
    pot_token := { owner := 2, amount := 0 }
    bidder_token := { owner := 1, amount := 1000 }
    auction :=
      { token_mint := 3, state := AuctionState.Started,
        price_floor := PriceFloor.MinimumPrice 100,
        last_bid := none, end_auction_at := none,
        bid_state := { bids := [], max := 3 } } }

/-- Baseline concrete input matching `sBase`: a 101-token bid with all
external checks passing. -/
def inpBase : PlaceBidInput :=
  { amount := 101, auction_key := 2, bidder_key := 1, mint_key := 3,
    pot_key := 5, pot_token_key := 6,
    clock := { slot := 50, unix_timestamp := 1234 },
    parse_ok := true, meta_derived := true, pot_derived := true,
    auction_derived := true, bidder_unpack_ok := true, transfer_ok := true }

/-- A first-time bidder: no metadata account yet. -/
def sFresh : PlaceBidState := { sBase with meta_exists := false }

/-- `sBase` with an uncancelled previous bid. -/
def sActive : PlaceBidState :=
  { sBase with meta := { sBase.meta with cancelled := false } }

/-- `sBase` but the auction is still `Created`. -/
def sCreatedMeta : PlaceBidState :=
  { sBase with auction := { sBase.auction with state := AuctionState.Created } }

/-- A first-time bidder on a still-`Created` auction. -/
def sCreatedFresh : PlaceBidState := { sCreatedMeta with meta_exists := false }

/-- Input whose declared mint (99) differs from the auction's configured
mint (3). -/
def inpMint : PlaceBidInput := { inpBase with mint_key := 99 }

/-- `sBase` with a last bid at slot 10 (so the grace period has lapsed
by slot 700) and no price floor. -/
def sGrace : PlaceBidState :=
  { sBase with auction := { sBase.auction with last_bid := some 10 } }

/-- `inpBase` observed at slot 700, past the grace period of `sGrace`. -/
def inpLate : PlaceBidInput :=
  { inpBase with clock := { slot := 700, unix_timestamp := 9999 } }

/-- `sBase` with exactly 5 tokens of balance and no price floor. -/
def sBal : PlaceBidState :=
  { sBase with
    bidder_token := { owner := 1, amount := 5 }
    auction := { sBase.auction with price_floor := PriceFloor.NoFloor } }

/-- A bid of exactly the 5 tokens the bidder holds. -/
def inpBal : PlaceBidInput := { inpBase with amount := 5 }

/-- The only error the ledger's `place_bid` produces is the
"bid too low to displace" rejection. -/
theorem bidState_error_eq (st : BidState) (b : Bid) (e : AuctionError)
    (h : st.place_bid b = Except.error e) : e = AuctionError.BidTooLow := by
  unfold BidState.place_bid at h
  split at h
  · cases h
  · split at h
    · injection h with h2
      exact h2.symm
    · split at h
      · cases h
      · injection h with h2
        exact h2.symm

/-- C7: a bidder whose metadata record exists with `cancelled = false`
is rejected with `BidAlreadyActive` and nothing is written; an absent
record is created (zeroed) and placement proceeds on the updated state;
an existing cancelled record lets placement proceed unchanged. -/
theorem place_bid_duplicate_active (inp : PlaceBidInput) (s : PlaceBidState)
    (hp : inp.parse_ok = true) (hd : inp.meta_derived = true) :
    (s.meta_exists = true → s.meta.cancelled = false →
      place_bid inp s = (s, some (ProgErr.Auction AuctionError.BidAlreadyActive))) ∧
    (s.meta_exists = false → place_bid inp s = afterMeta inp (metaResolved s)) ∧
    (s.meta_exists = true → s.meta.cancelled = true →
      place_bid inp s = afterMeta inp s) := by
  refine ⟨fun h1 h2 => ?_, fun h1 => ?_, fun h1 h2 => ?_⟩
  · simp [place_bid, hp, hd, h1, h2]
  · simp [place_bid, metaResolved, hp, hd, h1]
  · simp [place_bid, hp, hd, h1, h2]

/-- C7 witness: the baseline bidder with an uncancelled bid gets
`BidAlreadyActive`; with the cancelled baseline record placement
proceeds into the rest of the protocol. -/
theorem place_bid_duplicate_active_witness :
    place_bid inpBase sActive =
      (sActive, some (ProgErr.Auction AuctionError.BidAlreadyActive)) ∧
    place_bid inpBase sBase = afterMeta inpBase sBase :=
  ⟨(place_bid_duplicate_active inpBase sActive (by decide) (by decide)).1
      (by decide) (by decide),
   (place_bid_duplicate_active inpBase sBase (by decide) (by decide)).2.2
      (by decide) (by decide)⟩

/-- C9: when the declared mint matches the auction's mint and the
duplicate-bid and pot-owner validations pass, any lifecycle state other
than `Started` makes `place_bid` fail with `InvalidState`. -/
theorem place_bid_invalid_state (inp : PlaceBidInput) (s : PlaceBidState)
    (hp : inp.parse_ok = true) (hd : inp.meta_derived = true)
    (hm : s.meta_exists = false ∨ s.meta.cancelled = true)
    (h4 : inp.pot_derived = true) (h5 : s.pot_token_init = true)
    (h6 : s.pot_token.owner = inp.auction_key)
    (h7 : inp.auction_derived = true)
    (h8 : s.auction.token_mint = inp.mint_key)
    (h9 : s.auction.state ≠ AuctionState.Started) :
    (place_bid inp s).2 = some (ProgErr.Auction AuctionError.InvalidState) := by
  by_cases hme : s.meta_exists = false
  · simp [place_bid, afterMeta, hp, hd, hme, h4, h5, h6, h7, h8, h9]
  · have hc : s.meta.cancelled = true := by
      rcases hm with hm | hm
      · exact absurd hm hme
      · exact hm
    simp [place_bid, afterMeta, hp, hd, hme, hc, h4, h5, h6, h7, h8, h9]

@[simp] theorem metaResolved_auction (s : PlaceBidState) :
    (metaResolved s).auction = s.auction := by
  unfold metaResolved; split <;> rfl

@[simp] theorem metaResolved_pot_exists (s : PlaceBidState) :
    (metaResolved s).pot_exists = s.pot_exists := by
  unfold metaResolved; split <;> rfl

@[simp] theorem metaResolved_pot (s : PlaceBidState) :
    (metaResolved s).pot = s.pot := by
  unfold metaResolved; split <;> rfl

@[simp] theorem metaResolved_pot_token (s : PlaceBidState) :
    (metaResolved s).pot_token = s.pot_token := by
  unfold metaResolved; split <;> rfl

@[simp] theorem metaResolved_pot_token_init (s : PlaceBidState) :
    (metaResolved s).pot_token_init = s.pot_token_init := by
  unfold metaResolved; split <;> rfl

@[simp] theorem metaResolved_bidder_token (s : PlaceBidState) :
    (metaResolved s).bidder_token = s.bidder_token := by
  unfold metaResolved; split <;> rfl

@[simp] theorem metaResolved_meta_exists (s : PlaceBidState) :
    (metaResolved s).meta_exists = true := by
  unfold metaResolved; split <;> simp_all

/-- Once past the metadata create-or-validate step, `place_bid`
continues as `afterMeta` on the resolved state. -/
theorem place_bid_to_afterMeta (inp : PlaceBidInput) (s : PlaceBidState)
    (hp : inp.parse_ok = true) (hd : inp.meta_derived = true)
    (hm : s.meta_exists = false ∨ s.meta.cancelled = true) :
    place_bid inp s = afterMeta inp (metaResolved s) := by
  by_cases hme : s.meta_exists = false
  · simp [place_bid, metaResolved, hp, hd, hme]
  · have hc : s.meta.cancelled = true := by
      rcases hm with hm | hm
      · exact absurd hm hme
      · exact hm
    simp [place_bid, metaResolved, hp, hd, hme, hc]

/-- With all validation checks passing, a matching mint, a `Started`
auction, an accepted floor and the end condition not holding,
`afterMeta` continues as `potStep`. -/
theorem afterMeta_to_potStep (inp : PlaceBidInput) (s : PlaceBidState)
    (h4 : inp.pot_derived = true) (h5 : s.pot_token_init = true)
    (h6 : s.pot_token.owner = inp.auction_key)
    (h7 : inp.auction_derived = true)
    (h8 : s.auction.token_mint = inp.mint_key)
    (h9 : s.auction.state = AuctionState.Started)
    (hfr : priceFloorRejects s.auction.price_floor inp.amount = false)
    (hend : s.auction.ended inp.clock.slot = false) :
    afterMeta inp s = potStep inp s := by
  simp [afterMeta, h4, h5, h6, h7, h8, h9, hfr, hend]

/-- With the same checks passing but the end condition holding,
`afterMeta` flips the auction to `Ended` and reports success. -/
theorem afterMeta_ended (inp : PlaceBidInput) (s : PlaceBidState)
    (h4 : inp.pot_derived = true) (h5 : s.pot_token_init = true)
    (h6 : s.pot_token.owner = inp.auction_key)
    (h7 : inp.auction_derived = true)
    (h8 : s.auction.token_mint = inp.mint_key)
    (h9 : s.auction.state = AuctionState.Started)
    (hfr : priceFloorRejects s.auction.price_floor inp.amount = false)
    (hend : s.auction.ended inp.clock.slot = true) :
    afterMeta inp s =
      ({ s with auction := { s.auction with state := AuctionState.Ended } }, none) := by
  simp [afterMeta, h4, h5, h6, h7, h8, h9, hfr, hend, AuctionState.endTransition]

/-- C9 witness: bidding on the still-`Created` baseline auction fails
with `InvalidState`. -/
theorem place_bid_invalid_state_witness :
    (place_bid inpBase sCreatedMeta).2 =
      some (ProgErr.Auction AuctionError.InvalidState) :=
  place_bid_invalid_state inpBase sCreatedMeta (by decide) (by decide)
    (Or.inr (by decide)) (by decide) (by decide) (by decide) (by decide)
    (by decide) (by decide)

/-- C3 counterexample: a first-time bidder (no metadata account) whose
declared mint (99) differs from the auction's mint (3) gets a success
result, but the state is *not* unchanged — the metadata account was
created before the currency check. -/
theorem place_bid_mint_mismatch_cex :
    (place_bid inpMint sFresh).2 = none ∧
    (place_bid inpMint sFresh).1 ≠ sFresh ∧
    (place_bid inpMint sFresh).1.meta_exists ≠ sFresh.meta_exists := by decide

/-- C3 (amended): a mint-mismatched bid that passes the duplicate-bid
and pot-owner validations succeeds silently, and the only possible state
change is the lazy zero-initialized creation of the bidder metadata
account for a first-time bidder (`metaResolved`); for a bidder whose
metadata record already exists, the state is fully unchanged. -/
theorem place_bid_mint_mismatch_noop (inp : PlaceBidInput) (s : PlaceBidState)
    (hp : inp.parse_ok = true) (hd : inp.meta_derived = true)
    (hm : s.meta_exists = false ∨ s.meta.cancelled = true)
    (h4 : inp.pot_derived = true) (h5 : s.pot_token_init = true)
    (h6 : s.pot_token.owner = inp.auction_key)
    (h7 : inp.auction_derived = true)
    (h8 : s.auction.token_mint ≠ inp.mint_key) :
    place_bid inp s = (metaResolved s, none) := by
  rw [place_bid_to_afterMeta inp s hp hd hm]
  simp [afterMeta, h4, h5, h6, h7, h8]

/-- C3 witness: on the baseline state (metadata record exists,
cancelled) a mint-mismatched bid returns success with the state
unchanged. -/
theorem place_bid_mint_mismatch_noop_witness :
    place_bid inpMint sBase = (metaResolved sBase, none) :=
  place_bid_mint_mismatch_noop inpMint sBase (by decide) (by decide)
    (Or.inr (by decide)) (by decide) (by decide) (by decide) (by decide)
    (by decide)

/-- C5: a bid on a `Started` auction that passes the currency and
price-floor checks while the end condition already holds drives the
`Started → Ended` transition, persists it, and returns success without
touching the bid ledger (the whole resulting state is the metadata-
resolved input state with only the auction's lifecycle state changed). -/
theorem place_bid_timeout_finalizes (inp : PlaceBidInput) (s : PlaceBidState)
    (hp : inp.parse_ok = true) (hd : inp.meta_derived = true)
    (hm : s.meta_exists = false ∨ s.meta.cancelled = true)
    (h4 : inp.pot_derived = true) (h5 : s.pot_token_init = true)
    (h6 : s.pot_token.owner = inp.auction_key)
    (h7 : inp.auction_derived = true)
    (h8 : s.auction.token_mint = inp.mint_key)
    (h9 : s.auction.state = AuctionState.Started)
    (hfr : priceFloorRejects s.auction.price_floor inp.amount = false)
    (hend : s.auction.ended inp.clock.slot = true) :
    place_bid inp s =
      ({ metaResolved s with
         auction := { s.auction with state := AuctionState.Ended } }, none) := by
  rw [place_bid_to_afterMeta inp s hp hd hm]
  rw [afterMeta_ended inp (metaResolved s) h4 (by simp [h5]) (by simp [h6]) h7
      (by simp [h8]) (by simp [h9]) (by simp [hfr]) (by simp [hend])]
  simp

/-- C5 witness: at slot 700, 690 slots after the last bid of `sGrace`
(grace period 600), a 101-token bid ends the auction and is not
registered. -/
theorem place_bid_timeout_finalizes_witness :
    place_bid inpLate sGrace =
      ({ metaResolved sGrace with
         auction := { sGrace.auction with state := AuctionState.Ended } }, none) :=
  place_bid_timeout_finalizes inpLate sGrace (by decide) (by decide)
    (Or.inr (by decide)) (by decide) (by decide) (by decide) (by decide)
    (by decide) (by decide) (by decide) (by decide)

/-- C10: on the timeout-finalization path the only auction field that
changes is the lifecycle state; the last-bid slot, bid ledger, price
floor, token mint and hard end slot are untouched, the metadata
contents are exactly those of the metadata-resolution step (so a
first-time bidder's account was allocated but never filled in), and the
pot records and both token balances are untouched. -/
theorem place_bid_timeout_frame (inp : PlaceBidInput) (s : PlaceBidState)
    (hp : inp.parse_ok = true) (hd : inp.meta_derived = true)
    (hm : s.meta_exists = false ∨ s.meta.cancelled = true)
    (h4 : inp.pot_derived = true) (h5 : s.pot_token_init = true)
    (h6 : s.pot_token.owner = inp.auction_key)
    (h7 : inp.auction_derived = true)
    (h8 : s.auction.token_mint = inp.mint_key)
    (h9 : s.auction.state = AuctionState.Started)
    (hfr : priceFloorRejects s.auction.price_floor inp.amount = false)
    (hend : s.auction.ended inp.clock.slot = true) :
    (place_bid inp s).2 = none ∧
    (place_bid inp s).1.auction.state = AuctionState.Ended ∧
    (place_bid inp s).1.auction.last_bid = s.auction.last_bid ∧
    (place_bid inp s).1.auction.bid_state = s.auction.bid_state ∧
    (place_bid inp s).1.auction.price_floor = s.auction.price_floor ∧
    (place_bid inp s).1.auction.token_mint = s.auction.token_mint ∧
    (place_bid inp s).1.auction.end_auction_at = s.auction.end_auction_at ∧
    (place_bid inp s).1.meta = (metaResolved s).meta ∧
    (place_bid inp s).1.pot_exists = s.pot_exists ∧
    (place_bid inp s).1.pot = s.pot ∧
    (place_bid inp s).1.pot_token = s.pot_token ∧
    (place_bid inp s).1.bidder_token = s.bidder_token := by
  rw [place_bid_to_afterMeta inp s hp hd hm]
  rw [afterMeta_ended inp (metaResolved s) h4 (by simp [h5]) (by simp [h6]) h7
      (by simp [h8]) (by simp [h9]) (by simp [hfr]) (by simp [hend])]
  unfold metaResolved
  split <;> simp_all

/-- C10 witness: the concrete timeout-finalizing run of `sGrace` at
slot 700 changes only the lifecycle state. -/
theorem place_bid_timeout_frame_witness :
    (place_bid inpLate sGrace).2 = none ∧
    (place_bid inpLate sGrace).1.auction.state = AuctionState.Ended ∧
    (place_bid inpLate sGrace).1.auction.last_bid = sGrace.auction.last_bid ∧
    (place_bid inpLate sGrace).1.auction.bid_state = sGrace.auction.bid_state ∧
    (place_bid inpLate sGrace).1.auction.price_floor = sGrace.auction.price_floor ∧
    (place_bid inpLate sGrace).1.auction.token_mint = sGrace.auction.token_mint ∧
    (place_bid inpLate sGrace).1.auction.end_auction_at = sGrace.auction.end_auction_at ∧
    (place_bid inpLate sGrace).1.meta = (metaResolved sGrace).meta ∧
    (place_bid inpLate sGrace).1.pot_exists = sGrace.pot_exists ∧
    (place_bid inpLate sGrace).1.pot = sGrace.pot ∧
    (place_bid inpLate sGrace).1.pot_token = sGrace.pot_token ∧
    (place_bid inpLate sGrace).1.bidder_token = sGrace.bidder_token :=
  place_bid_timeout_frame inpLate sGrace (by decide) (by decide)
    (Or.inr (by decide)) (by decide) (by decide) (by decide) (by decide)
    (by decide) (by decide) (by decide) (by decide)

@[simp] theorem potResolved_auction (inp : PlaceBidInput) (s : PlaceBidState) :
    (potResolved inp s).auction = s.auction := by
  unfold potResolved; split <;> rfl

@[simp] theorem potResolved_meta (inp : PlaceBidInput) (s : PlaceBidState) :
    (potResolved inp s).meta = s.meta := by
  unfold potResolved; split <;> rfl

@[simp] theorem potResolved_meta_exists (inp : PlaceBidInput) (s : PlaceBidState) :
    (potResolved inp s).meta_exists = s.meta_exists := by
  unfold potResolved; split <;> rfl

@[simp] theorem potResolved_pot_token (inp : PlaceBidInput) (s : PlaceBidState) :
    (potResolved inp s).pot_token = s.pot_token := by
  unfold potResolved; split <;> rfl

@[simp] theorem potResolved_pot_token_init (inp : PlaceBidInput) (s : PlaceBidState) :
    (potResolved inp s).pot_token_init = s.pot_token_init := by
  unfold potResolved; split <;> rfl

@[simp] theorem potResolved_bidder_token (inp : PlaceBidInput) (s : PlaceBidState) :
    (potResolved inp s).bidder_token = s.bidder_token := by
  unfold potResolved; split <;> rfl

/-- Once the pot create-or-verify step passes, `potStep` continues as
`afterPot` on the pot-resolved state. -/
theorem potStep_to_afterPot (inp : PlaceBidInput) (s : PlaceBidState)
    (hpot : s.pot_exists = false ∨ s.pot.bidder_pot = inp.pot_token_key) :
    potStep inp s = afterPot inp (potResolved inp s) := by
  by_cases hpe : s.pot_exists = false
  · simp [potStep, potResolved, hpe]
  · have hc : s.pot.bidder_pot = inp.pot_token_key := by
      rcases hpot with hpot | hpot
      · exact absurd hpot hpe
      · exact hpot
    simp [potStep, potResolved, hpe, hc]

/-- `afterPot` never produces the price-floor error: its failures are
the unpack, balance, transfer and ledger-rejection ones. -/
theorem afterPot_ne_bidTooSmall (inp : PlaceBidInput) (s : PlaceBidState) :
    (afterPot inp s).2 ≠ some (ProgErr.Auction AuctionError.BidTooSmall) := by
  unfold afterPot
  split_ifs <;> try simp
  split
  next e heq =>
    have he := bidState_error_eq _ _ _ heq
    subst he
    simp
  next bs heq => simp

/-- `potStep` never produces the price-floor error. -/
theorem potStep_ne_bidTooSmall (inp : PlaceBidInput) (s : PlaceBidState) :
    (potStep inp s).2 ≠ some (ProgErr.Auction AuctionError.BidTooSmall) := by
  unfold potStep
  split_ifs <;> first
    | exact afterPot_ne_bidTooSmall inp _
    | simp

/-- On the full success path `afterPot` debits the source, credits the
pot, sets the auction's `last_bid`, installs the ledger's result and
overwrites the metadata record. -/
theorem afterPot_success (inp : PlaceBidInput) (s : PlaceBidState) (bs : BidState)
    (hu : inp.bidder_unpack_ok = true)
    (hb : s.bidder_token.amount - inp.amount ≠ 0)
    (ht : inp.transfer_ok = true)
    (hl : s.auction.bid_state.place_bid ⟨inp.pot_key, inp.amount⟩ = Except.ok bs) :
    afterPot inp s =
      ({ s with
         bidder_token := { s.bidder_token with amount := s.bidder_token.amount - inp.amount }
         pot_token := { s.pot_token with amount := s.pot_token.amount + inp.amount }
         auction := { s.auction with last_bid := some inp.clock.slot, bid_state := bs }
         meta :=
           { bidder_pubkey := inp.bidder_key
             auction_pubkey := inp.auction_key
             last_bid := inp.clock.slot
             last_bid_timestamp := inp.clock.unix_timestamp
             cancelled := false } }, none) := by
  simp [afterPot, hu, hb, ht, hl]

/-- C4: code bug at line 243 of `place_bid.rs` — the check
`account.amount.saturating_sub(args.amount) <= 0` rejects a balance
*equal* to the bid amount although such a balance is sufficient to
cover the bid (and the comment above the check says "balance is enough
to pay the bid").  With a balance of 5 and a bid of 5, every earlier
check passes and the processor returns `BalanceTooLow` with the state
unchanged. -/
theorem place_bid_balance_eq_rejected :
    sBal.bidder_token.amount = inpBal.amount ∧
    place_bid inpBal sBal =
      (sBal, some (ProgErr.Auction AuctionError.BalanceTooLow)) := by decide

/-- C8: with a configured `MinimumPrice floor` on a running auction
whose mint matches and whose earlier validations pass, a bid with
`amount ≤ floor` fails with `BidTooSmall`, and a bid with
`amount > floor` is never rejected with `BidTooSmall` by any later
step. -/
theorem place_bid_price_floor (inp : PlaceBidInput) (s : PlaceBidState) (floor : Nat)
    (hp : inp.parse_ok = true) (hd : inp.meta_derived = true)
    (hm : s.meta_exists = false ∨ s.meta.cancelled = true)
    (h4 : inp.pot_derived = true) (h5 : s.pot_token_init = true)
    (h6 : s.pot_token.owner = inp.auction_key)
    (h7 : inp.auction_derived = true)
    (h8 : s.auction.token_mint = inp.mint_key)
    (h9 : s.auction.state = AuctionState.Started)
    (hf : s.auction.price_floor = PriceFloor.MinimumPrice floor) :
    (inp.amount ≤ floor →
      (place_bid inp s).2 = some (ProgErr.Auction AuctionError.BidTooSmall)) ∧
    (floor < inp.amount →
      (place_bid inp s).2 ≠ some (ProgErr.Auction AuctionError.BidTooSmall)) := by
  rw [place_bid_to_afterMeta inp s hp hd hm]
  constructor
  · intro hle
    simp [afterMeta, h4, h5, h6, h7, h8, h9, priceFloorRejects, hf, hle]
  · intro hgt
    have hfr : priceFloorRejects s.auction.price_floor inp.amount = false := by
      simp [priceFloorRejects, hf]
      omega
    by_cases hend : s.auction.ended inp.clock.slot = true
    · rw [afterMeta_ended inp (metaResolved s) h4 (by simp [h5]) (by simp [h6]) h7
          (by simp [h8]) (by simp [h9]) (by simp [hfr]) (by simp [hend])]
      simp
    · rw [afterMeta_to_potStep inp (metaResolved s) h4 (by simp [h5]) (by simp [h6]) h7
          (by simp [h8]) (by simp [h9]) (by simp [hfr])
          (by simp [Bool.eq_false_iff.mpr hend])]
      exact potStep_ne_bidTooSmall inp (metaResolved s)

/-- C8 witness: on the baseline auction with floor 100, a 100-token bid
is rejected with `BidTooSmall` and a 101-token bid is not. -/
theorem place_bid_price_floor_witness :
    (place_bid { inpBase with amount := 100 } sBase).2 =
      some (ProgErr.Auction AuctionError.BidTooSmall) ∧
    (place_bid inpBase sBase).2 ≠
      some (ProgErr.Auction AuctionError.BidTooSmall) :=
  ⟨(place_bid_price_floor { inpBase with amount := 100 } sBase 100 (by decide)
      (by decide) (Or.inr (by decide)) (by decide) (by decide) (by decide)
      (by decide) (by decide) (by decide) (by decide)).1 (by decide),
   (place_bid_price_floor inpBase sBase 100 (by decide) (by decide)
      (Or.inr (by decide)) (by decide) (by decide) (by decide) (by decide)
      (by decide) (by decide) (by decide)).2 (by decide)⟩

/-- C6: on the full success path (all validations pass, the auction is
running, the floor and deadline checks pass, the pot binding resolves,
the balance check passes, the transfer succeeds and the ledger accepts
the bid), the final state sets the auction's `last_bid` to the current
slot, installs the ledger holding the (pot reference, amount) pair,
persists the auction, moves `amount` from the source to the pot, and
overwrites the metadata record with the bid's slot/timestamp and
`cancelled = false`. -/
theorem place_bid_success_postcondition (inp : PlaceBidInput) (s : PlaceBidState)
    (bs : BidState)
    (hp : inp.parse_ok = true) (hd : inp.meta_derived = true)
    (hm : s.meta_exists = false ∨ s.meta.cancelled = true)
    (h4 : inp.pot_derived = true) (h5 : s.pot_token_init = true)
    (h6 : s.pot_token.owner = inp.auction_key)
    (h7 : inp.auction_derived = true)
    (h8 : s.auction.token_mint = inp.mint_key)
    (h9 : s.auction.state = AuctionState.Started)
    (hfr : priceFloorRejects s.auction.price_floor inp.amount = false)
    (hend : s.auction.ended inp.clock.slot = false)
    (hpot : s.pot_exists = false ∨ s.pot.bidder_pot = inp.pot_token_key)
    (hu : inp.bidder_unpack_ok = true)
    (hb : s.bidder_token.amount - inp.amount ≠ 0)
    (ht : inp.transfer_ok = true)
    (hl : s.auction.bid_state.place_bid ⟨inp.pot_key, inp.amount⟩ = Except.ok bs) :
    place_bid inp s =
      ({ potResolved inp (metaResolved s) with
         bidder_token := { s.bidder_token with amount := s.bidder_token.amount - inp.amount }
         pot_token := { s.pot_token with amount := s.pot_token.amount + inp.amount }
         auction := { s.auction with last_bid := some inp.clock.slot, bid_state := bs }
         meta :=
           { bidder_pubkey := inp.bidder_key
             auction_pubkey := inp.auction_key
             last_bid := inp.clock.slot
             last_bid_timestamp := inp.clock.unix_timestamp
             cancelled := false } }, none) := by
  rw [place_bid_to_afterMeta inp s hp hd hm]
  rw [afterMeta_to_potStep inp (metaResolved s) h4 (by simp [h5]) (by simp [h6]) h7
      (by simp [h8]) (by simp [h9]) (by simp [hfr]) (by simp [hend])]
  rw [potStep_to_afterPot inp (metaResolved s) (by simpa using hpot)]
  rw [afterPot_success inp (potResolved inp (metaResolved s)) bs hu
      (by simpa using hb) ht (by simpa using hl)]
  simp

/-- C6 witness: the baseline 101-token bid at slot 50 debits the
bidder, credits the pot, and records the bid and metadata. -/
theorem place_bid_success_postcondition_witness :
    place_bid inpBase sBase =
      ({ potResolved inpBase (metaResolved sBase) with
         bidder_token :=
           { sBase.bidder_token with amount := sBase.bidder_token.amount - inpBase.amount }
         pot_token :=
           { sBase.pot_token with amount := sBase.pot_token.amount + inpBase.amount }
         auction :=
           { sBase.auction with
             last_bid := some inpBase.clock.slot
             bid_state := { bids := [{ pot := 5, amount := 101 }], max := 3 } }
         meta :=
           { bidder_pubkey := inpBase.bidder_key
             auction_pubkey := inpBase.auction_key
             last_bid := inpBase.clock.slot
             last_bid_timestamp := inpBase.clock.unix_timestamp
             cancelled := false } }, none) :=
  place_bid_success_postcondition inpBase sBase
    { bids := [{ pot := 5, amount := 101 }], max := 3 }
    (by decide) (by decide) (Or.inr (by decide)) (by decide) (by decide)
    (by decide) (by decide) (by decide) (by decide) (by decide) (by decide)
    (Or.inr (by decide)) (by decide) (by decide) (by decide) rfl

/-- Exhaustive outcome analysis of `afterPot`: three early errors that
leave the state untouched, the post-transfer ledger rejection, or
success. -/
theorem afterPot_cases (inp : PlaceBidInput) (s : PlaceBidState) :
    afterPot inp s = (s, some ProgErr.UnpackFailed) ∨
    afterPot inp s = (s, some (ProgErr.Auction AuctionError.BalanceTooLow)) ∨
    afterPot inp s = (s, some ProgErr.TransferFailed) ∨
    (afterPot inp s).2 = some (ProgErr.Auction AuctionError.BidTooLow) ∨
    (afterPot inp s).2 = none := by
  unfold afterPot
  split_ifs
  · exact Or.inl rfl
  · exact Or.inr (Or.inl rfl)
  · exact Or.inr (Or.inr (Or.inl rfl))
  · rcases hml : BidState.place_bid s.auction.bid_state ⟨inp.pot_key, inp.amount⟩
        with e' | bs
    · have he := bidState_error_eq _ _ _ hml
      subst he
      refine Or.inr (Or.inr (Or.inr (Or.inl ?_)))
      simp [hml]
    · refine Or.inr (Or.inr (Or.inr (Or.inr ?_)))
      simp [hml]

/-- Any `afterPot` error other than the post-transfer ledger rejection
leaves the state exactly as it was. -/
theorem afterPot_err_frame (inp : PlaceBidInput) (s : PlaceBidState) (e : ProgErr)
    (he : (afterPot inp s).2 = some e)
    (hne : e ≠ ProgErr.Auction AuctionError.BidTooLow) :
    (afterPot inp s).1 = s := by
  rcases afterPot_cases inp s with h | h | h | h | h
  · rw [h]
  · rw [h]
  · rw [h]
  · rw [h] at he
    injection he with he2
    exact absurd he2.symm hne
  · rw [h] at he
    cases he

/-- Any `potStep` error other than the ledger rejection leaves the
state unchanged up to the lazy pot-binding creation. -/
theorem potStep_err_frame (inp : PlaceBidInput) (s : PlaceBidState) (e : ProgErr)
    (he : (potStep inp s).2 = some e)
    (hne : e ≠ ProgErr.Auction AuctionError.BidTooLow) :
    (potStep inp s).1 = s ∨ (potStep inp s).1 = potResolved inp s := by
  unfold potStep at he ⊢
  split_ifs at he ⊢ with hpe hmm
  · right
    rw [afterPot_err_frame inp _ e he hne]
    simp [potResolved, hpe]
  · left; rfl
  · left
    exact afterPot_err_frame inp s e he hne

/-- Any `afterMeta` error other than the ledger rejection leaves the
state unchanged up to the lazy pot-binding creation. -/
theorem afterMeta_err_frame (inp : PlaceBidInput) (s : PlaceBidState) (e : ProgErr)
    (he : (afterMeta inp s).2 = some e)
    (hne : e ≠ ProgErr.Auction AuctionError.BidTooLow) :
    (afterMeta inp s).1 = s ∨ (afterMeta inp s).1 = potResolved inp s := by
  unfold afterMeta at he ⊢
  split_ifs at he ⊢
  · left; rfl
  · left; rfl
  · left; rfl
  · left; rfl
  · left; rfl
  · left; rfl
  · rcases hse : s.auction.state.endTransition with e' | st
    · left
      simp [hse]
    · simp [hse] at he
  · exact potStep_err_frame inp s e he hne

/-- C1 (amended): whenever `place_bid` returns an error other than the
post-transfer ledger rejection — i.e. any failure occurring before the
step-9 escrow transfer — the resulting persisted state is the initial
one, except possibly for the lazy creations of step 1 (the zeroed
bidder metadata account) and step 7 (the pot binding). -/
theorem place_bid_prefail_frame (inp : PlaceBidInput) (s : PlaceBidState) (e : ProgErr)
    (he : (place_bid inp s).2 = some e)
    (hne : e ≠ ProgErr.Auction AuctionError.BidTooLow) :
    (place_bid inp s).1 = s ∨
    (place_bid inp s).1 = metaResolved s ∨
    (place_bid inp s).1 = potResolved inp (metaResolved s) := by
  unfold place_bid at he ⊢
  split_ifs at he ⊢ with h1 h2 h3 h4
  · left; rfl
  · left; rfl
  · have hu : ({ s with meta_exists := true, meta := zeroMeta } : PlaceBidState) =
        metaResolved s := by
      simp [metaResolved, h3]
    rw [hu] at he ⊢
    rcases afterMeta_err_frame inp (metaResolved s) e he hne with h | h
    · right; left; exact h
    · right; right; exact h
  · left; rfl
  · have h3t : s.meta_exists = true := by
      revert h3; cases s.meta_exists <;> simp
    have hs : metaResolved s = s := by
      simp [metaResolved, h3t]
    rcases afterMeta_err_frame inp s e he hne with h | h
    · left; exact h
    · right; right
      rw [hs]
      exact h

/-- C1 counterexample: a first-time bidder hitting `InvalidState` (an
error well before the step-9 transfer, with the pot binding left
untouched) nevertheless leaves the persisted state changed — the
metadata account was created by step 1. -/
theorem place_bid_prefail_frame_cex :
    (place_bid inpBase sCreatedFresh).2 =
      some (ProgErr.Auction AuctionError.InvalidState) ∧
    (place_bid inpBase sCreatedFresh).1 ≠ sCreatedFresh ∧
    (place_bid inpBase sCreatedFresh).1.pot_exists = sCreatedFresh.pot_exists ∧
    (place_bid inpBase sCreatedFresh).1.pot = sCreatedFresh.pot ∧
    (place_bid inpBase sCreatedFresh).1.meta_exists = true ∧
    sCreatedFresh.meta_exists = false := by decide

/-- C1 witness: the `InvalidState` failure on the baseline existing
bidder leaves the state in the allowed set (here: unchanged). -/
theorem place_bid_prefail_frame_witness :
    (place_bid inpBase sCreatedMeta).1 = sCreatedMeta ∨
    (place_bid inpBase sCreatedMeta).1 = metaResolved sCreatedMeta ∨
    (place_bid inpBase sCreatedMeta).1 = potResolved inpBase (metaResolved sCreatedMeta) :=
  place_bid_prefail_frame inpBase sCreatedMeta
    (ProgErr.Auction AuctionError.InvalidState) (by decide) (by decide)

theorem insertBid_perm (b : Bid) : (l : List Bid) → (insertBid b l).Perm (b :: l)
  | [] => List.Perm.refl _
  | c :: rest => by
    unfold insertBid
    split
    · exact List.Perm.refl _
    · exact ((insertBid_perm b rest).cons c).trans (List.Perm.swap b c rest)

theorem length_insertBid (b : Bid) (l : List Bid) :
    (insertBid b l).length = l.length + 1 := by
  rw [(insertBid_perm b l).length_eq]
  rfl

theorem mem_insertBid {x b : Bid} {l : List Bid} :
    x ∈ insertBid b l ↔ x = b ∨ x ∈ l := by
  rw [(insertBid_perm b l).mem_iff]
  simp

theorem sortedBids_insertBid (b : Bid) :
    (l : List Bid) → sortedBids l → sortedBids (insertBid b l)
  | [], _ => List.pairwise_cons.mpr ⟨by simp, List.Pairwise.nil⟩
  | c :: rest, h => by
    obtain ⟨hc, hrest⟩ := List.pairwise_cons.mp h
    unfold insertBid
    split
    next hlt =>
      refine List.pairwise_cons.mpr ⟨?_, h⟩
      intro b' hb'
      rcases List.mem_cons.mp hb' with rfl | hb'
      · exact Nat.le_of_lt hlt
      · exact Nat.le_trans (Nat.le_of_lt hlt) (hc b' hb')
    next hge =>
      refine List.pairwise_cons.mpr ⟨?_, sortedBids_insertBid b rest hrest⟩
      intro b' hb'
      rcases mem_insertBid.mp hb' with rfl | hb'
      · exact Nat.le_of_not_lt hge
      · exact hc b' hb'

theorem amountsOf_cons (b : Bid) (l : List Bid) :
    amountsOf (b :: l) = b.amount ::ₘ amountsOf l := by
  simp [amountsOf]

theorem amountsOf_card (l : List Bid) :
    Multiset.card (amountsOf l) = l.length := by
  simp [amountsOf]

theorem amountsOf_insertBid (b : Bid) (l : List Bid) :
    amountsOf (insertBid b l) = b.amount ::ₘ amountsOf l := by
  have hmap := (insertBid_perm b l).map Bid.amount
  have : ((insertBid b l).map Bid.amount : Multiset Nat) =
      ((b :: l).map Bid.amount : List Nat) := Multiset.coe_eq_coe.mpr hmap
  simpa [amountsOf] using this

theorem ledgerStep_insert (st : BidState) (b : Bid)
    (h1 : st.bids.length < st.max) :
    ledgerStep st b = ⟨insertBid b st.bids, st.max⟩ := by
  simp [ledgerStep, BidState.place_bid, h1]

theorem ledgerStep_nil (st : BidState) (b : Bid)
    (hb : st.bids = []) (h1 : ¬ st.bids.length < st.max) :
    ledgerStep st b = st := by
  obtain ⟨bids, mx⟩ := st
  simp only at hb h1
  subst hb
  have h1' : ¬ 0 < mx := by simpa using h1
  simp [ledgerStep, BidState.place_bid, h1']

theorem ledgerStep_evict (st : BidState) (b m : Bid) (rest : List Bid)
    (hb : st.bids = m :: rest) (h1 : ¬ st.bids.length < st.max)
    (h2 : m.amount < b.amount) :
    ledgerStep st b = ⟨insertBid b rest, st.max⟩ := by
  obtain ⟨bids, mx⟩ := st
  simp only at hb h1 ⊢
  subst hb
  have h1' : ¬ rest.length + 1 < mx := by simpa using h1
  simp [ledgerStep, BidState.place_bid, h1', h2]

theorem ledgerStep_reject (st : BidState) (b m : Bid) (rest : List Bid)
    (hb : st.bids = m :: rest) (h1 : ¬ st.bids.length < st.max)
    (h2 : ¬ m.amount < b.amount) :
    ledgerStep st b = st := by
  obtain ⟨bids, mx⟩ := st
  simp only at hb h1
  subst hb
  have h1' : ¬ rest.length + 1 < mx := by simpa using h1
  simp [ledgerStep, BidState.place_bid, h1', h2]

/-- One ledger call preserves the running invariant, accounting the
candidate's amount as submitted. -/
theorem ledgerInv_step (c : Nat) (sub : Multiset Nat) (st : BidState) (b : Bid)
    (h : LedgerInv c sub st) :
    LedgerInv c (b.amount ::ₘ sub) (ledgerStep st b) := by
  obtain ⟨hmax, hsort, hlen, ev, hsum, hdom⟩ := h
  have hcards : Multiset.card (amountsOf st.bids) + Multiset.card ev =
      Multiset.card sub := by
    rw [← Multiset.card_add, hsum]
  rw [amountsOf_card] at hcards
  by_cases h1 : st.bids.length < st.max
  · -- room left: plain sorted insertion
    rw [ledgerStep_insert st b h1]
    have hev0 : ev = 0 := by
      rw [← Multiset.card_eq_zero]
      omega
    subst hev0
    rw [add_zero] at hsum
    refine ⟨hmax, sortedBids_insertBid b _ hsort, ?_, 0, ?_, ?_⟩
    · simp only [length_insertBid, Multiset.card_cons]
      omega
    · rw [amountsOf_insertBid, add_zero, hsum]
    · intro x hx
      exact absurd hx (Multiset.not_mem_zero x)
  · rcases hbids : st.bids with _ | ⟨m, rest⟩
    · -- capacity 0: the candidate is rejected outright
      rw [ledgerStep_nil st b hbids h1]
      have hmx0 : ¬ 0 < st.max := by
        rw [hbids] at h1
        simpa using h1
      refine ⟨hmax, hsort, ?_, b.amount ::ₘ ev, ?_, ?_⟩
      · rw [hbids]
        simp only [List.length_nil, Multiset.card_cons]
        omega
      · rw [Multiset.add_cons, hsum]
      · intro x hx b' hb'
        rw [hbids] at hb'
        cases hb'
    · have hmrest : ∀ b' ∈ rest, m.amount ≤ b'.amount := by
        rw [hbids] at hsort
        exact (List.pairwise_cons.mp hsort).1
      have hrest : sortedBids rest := by
        rw [hbids] at hsort
        exact (List.pairwise_cons.mp hsort).2
      by_cases h2 : m.amount < b.amount
      · -- evict the minimum, insert the candidate
        rw [ledgerStep_evict st b m rest hbids h1 h2]
        refine ⟨hmax, sortedBids_insertBid b _ hrest, ?_, m.amount ::ₘ ev, ?_, ?_⟩
        · simp only [length_insertBid, Multiset.card_cons]
          rw [hbids] at hlen h1
          simp only [List.length_cons] at hlen h1 ⊢
          omega
        · rw [amountsOf_insertBid, Multiset.cons_add, Multiset.add_cons,
              ← Multiset.cons_add, ← amountsOf_cons, ← hbids, hsum]
        · intro x hx b' hb'
          rcases Multiset.mem_cons.mp hx with rfl | hx
          · rcases mem_insertBid.mp hb' with rfl | hb'
            · exact Nat.le_of_lt h2
            · exact hmrest b' hb'
          · rcases mem_insertBid.mp hb' with rfl | hb'
            · have hxm : x ≤ m.amount := hdom x hx m (by rw [hbids]; simp)
              exact Nat.le_trans hxm (Nat.le_of_lt h2)
            · exact hdom x hx b' (by rw [hbids]; simp [hb'])
      · -- candidate too low to displace: rejected, ledger unchanged
        rw [ledgerStep_reject st b m rest hbids h1 h2]
        refine ⟨hmax, hsort, ?_, b.amount ::ₘ ev, ?_, ?_⟩
        · simp only [Multiset.card_cons]
          rw [hbids] at hlen h1
          rw [hbids]
          simp only [List.length_cons] at hlen h1 ⊢
          omega
        · rw [Multiset.add_cons, hsum]
        · intro x hx b' hb'
          rcases Multiset.mem_cons.mp hx with rfl | hx
          · rw [hbids] at hb'
            rcases List.mem_cons.mp hb' with rfl | hb'
            · exact Nat.le_of_not_lt h2
            · exact Nat.le_trans (Nat.le_of_not_lt h2) (hmrest b' hb')
          · exact hdom x hx b' hb'

/-- Folding a list of candidates through the ledger preserves the
invariant. -/
theorem foldl_ledgerInv (c : Nat) :
    (l : List Bid) → (st : BidState) → (sub : Multiset Nat) →
    LedgerInv c sub st → LedgerInv c (sub + amountsOf l) (l.foldl ledgerStep st)
  | [], st, sub, h => by simpa [amountsOf] using h
  | b :: l', st, sub, h => by
    have h2 := foldl_ledgerInv c l' (ledgerStep st b) (b.amount ::ₘ sub)
      (ledgerInv_step c sub st b h)
    have hacc : sub + amountsOf (b :: l') = b.amount ::ₘ sub + amountsOf l' := by
      rw [amountsOf_cons, Multiset.add_cons, Multiset.cons_add]
    rw [List.foldl_cons, hacc]
    exact h2

/-- The invariant holds of a full run from the empty ledger. -/
theorem runBids_inv (c : Nat) (l : List Bid) :
    LedgerInv c (amountsOf l) (runBids c l) := by
  have h0 : LedgerInv c 0 ⟨[], c⟩ :=
    ⟨rfl, List.Pairwise.nil, by simp, 0, by simp [amountsOf], by simp⟩
  have h := foldl_ledgerInv c l ⟨[], c⟩ 0 h0
  rw [zero_add] at h
  exact h

/-- C2: the Bid Ledger's bounded min-eviction behaviour.  Below
capacity a candidate is always inserted in sorted position; at capacity
a candidate not exceeding the minimum (head) is rejected with the
ledger unchanged while a larger candidate evicts the minimum; any
successful call preserves sortedness and the capacity bound; and a
whole run from the empty ledger leaves exactly the top
`min (number submitted) capacity` amounts, every unretained submission
being ≤ every retained one. -/
theorem ledger_place_bid_spec (st : BidState) (b : Bid) (c : Nat) (l : List Bid) :
    (st.bids.length < st.max →
      st.place_bid b = Except.ok ⟨insertBid b st.bids, st.max⟩) ∧
    (∀ m rest, st.bids = m :: rest → st.bids.length = st.max →
      (b.amount ≤ m.amount →
        st.place_bid b = Except.error AuctionError.BidTooLow ∧
        ledgerStep st b = st) ∧
      (m.amount < b.amount →
        st.place_bid b = Except.ok ⟨insertBid b rest, st.max⟩)) ∧
    (∀ st2, sortedBids st.bids → st.place_bid b = Except.ok st2 →
      sortedBids st2.bids ∧ st2.max = st.max ∧
      (st.bids.length ≤ st.max → st2.bids.length ≤ st.max)) ∧
    (sortedBids (runBids c l).bids ∧
      (runBids c l).max = c ∧
      (runBids c l).bids.length = min l.length c ∧
      IsTopSelection (amountsOf l) (runBids c l)) := by
  refine ⟨fun h1 => by simp [BidState.place_bid, h1],
    fun m rest hb hlen => ⟨fun hle => ?_, fun hgt => ?_⟩, fun st2 hsort hok => ?_, ?_⟩
  · have h1 : ¬ st.bids.length < st.max := by omega
    have h2 : ¬ m.amount < b.amount := Nat.not_lt.mpr hle
    constructor
    · have := ledgerStep_reject st b m rest hb h1 h2
      unfold ledgerStep at this
      rcases hres : st.place_bid b with e | bs
      · rw [bidState_error_eq st b e hres]
      · rw [hres] at this
        exfalso
        obtain ⟨bids, mx⟩ := st
        simp only at hb h1 hlen
        subst hb
        subst hlen
        simp [BidState.place_bid, h2] at hres
    · exact ledgerStep_reject st b m rest hb h1 h2
  · have h1 : ¬ st.bids.length < st.max := by omega
    obtain ⟨bids, mx⟩ := st
    simp only at hb h1 hlen ⊢
    subst hb
    have h1' : ¬ rest.length + 1 < mx := by simpa using h1
    simp [BidState.place_bid, h1', hgt]
  · by_cases h1 : st.bids.length < st.max
    · rw [(by simp [BidState.place_bid, h1] :
          st.place_bid b = Except.ok ⟨insertBid b st.bids, st.max⟩)] at hok
      injection hok with hok
      subst hok
      refine ⟨sortedBids_insertBid b _ hsort, rfl, fun hcap => ?_⟩
      simp only [length_insertBid]
      omega
    · rcases hbids : st.bids with _ | ⟨m, rest⟩
      · obtain ⟨bids, mx⟩ := st
        simp only at hbids h1 hok
        subst hbids
        have h1' : ¬ 0 < mx := by simpa using h1
        simp [BidState.place_bid, h1'] at hok
      · have hrest : sortedBids rest := by
          rw [hbids] at hsort
          exact (List.pairwise_cons.mp hsort).2
        by_cases h2 : m.amount < b.amount
        · obtain ⟨bids, mx⟩ := st
          simp only at hbids h1 hok ⊢
          subst hbids
          have h1' : ¬ rest.length + 1 < mx := by simpa using h1
          simp [BidState.place_bid, h1', h2] at hok
          subst hok
          refine ⟨sortedBids_insertBid b _ hrest, rfl, fun hcap => ?_⟩
          simp only [length_insertBid, List.length_cons] at *
          omega
        · obtain ⟨bids, mx⟩ := st
          simp only at hbids h1 hok
          subst hbids
          have h1' : ¬ rest.length + 1 < mx := by simpa using h1
          simp [BidState.place_bid, h1', h2] at hok
  · obtain ⟨hmax, hsort, hlen, htop⟩ := runBids_inv c l
    refine ⟨hsort, hmax, ?_, htop⟩
    rw [hlen, amountsOf_card]

/-- C2 witness: with capacity 1 and ledger `[(1,5)]`, a bid of 7 evicts
the 5 and a bid of 4 is rejected leaving the ledger unchanged; a run of
amounts 5, 3, 7, 4 through a capacity-2 ledger retains 5 and 7 sorted,
with 3 and 4 the unretained submissions. -/
theorem ledger_place_bid_spec_witness :
    BidState.place_bid ⟨[⟨1, 5⟩], 1⟩ ⟨2, 7⟩ = Except.ok ⟨[⟨2, 7⟩], 1⟩ ∧
    (BidState.place_bid ⟨[⟨1, 5⟩], 1⟩ ⟨2, 4⟩ = Except.error AuctionError.BidTooLow ∧
      ledgerStep ⟨[⟨1, 5⟩], 1⟩ ⟨2, 4⟩ = ⟨[⟨1, 5⟩], 1⟩) ∧
    sortedBids (runBids 2 [⟨1, 5⟩, ⟨2, 3⟩, ⟨3, 7⟩, ⟨4, 4⟩]).bids ∧
    (runBids 2 [⟨1, 5⟩, ⟨2, 3⟩, ⟨3, 7⟩, ⟨4, 4⟩]).bids.length = min 4 2 ∧
    IsTopSelection (amountsOf [⟨1, 5⟩, ⟨2, 3⟩, ⟨3, 7⟩, ⟨4, 4⟩])
      (runBids 2 [⟨1, 5⟩, ⟨2, 3⟩, ⟨3, 7⟩, ⟨4, 4⟩]) :=
  ⟨((ledger_place_bid_spec ⟨[⟨1, 5⟩], 1⟩ ⟨2, 7⟩ 2 []).2.1 ⟨1, 5⟩ [] rfl rfl).2
      (by decide),
   ((ledger_place_bid_spec ⟨[⟨1, 5⟩], 1⟩ ⟨2, 4⟩ 2 []).2.1 ⟨1, 5⟩ [] rfl rfl).1
      (by decide),
   (ledger_place_bid_spec ⟨[], 2⟩ ⟨0, 0⟩ 2 [⟨1, 5⟩, ⟨2, 3⟩, ⟨3, 7⟩, ⟨4, 4⟩]).2.2.2.1,
   by
     have h := (ledger_place_bid_spec ⟨[], 2⟩ ⟨0, 0⟩ 2
       [⟨1, 5⟩, ⟨2, 3⟩, ⟨3, 7⟩, ⟨4, 4⟩]).2.2.2.2.2.1
     simpa using h,
   (ledger_place_bid_spec ⟨[], 2⟩ ⟨0, 0⟩ 2 [⟨1, 5⟩, ⟨2, 3⟩, ⟨3, 7⟩, ⟨4, 4⟩]).2.2.2.2.2.2⟩

end Auction
